import Mathlib

/-!
Shallow embedding of the traffic-analysis program (`traffic_analysis.py`,
with its callers `api.py`): the record model, the line parser, the four
aggregators and the orchestrator, together with theorems checking the
frozen specification claims against these definitions.

Python integers are modelled as `Int` (counts) and `Nat` (calendar
fields); Python lists as `List`; the Python `dict` built by
`cars_per_day` as an insertion-ordered association list; `datetime`
values as a seven-field structure compared lexicographically, exactly as
CPython compares naive datetimes field by field.
-/

namespace Traffic

/-- Model of a naive CPython `datetime.datetime` value (no timezone, as
the program never attaches one): the seven components CPython stores and
compares lexicographically. -/
structure DateTime where
  year : Nat
  month : Nat
  day : Nat
  hour : Nat
  minute : Nat
  second : Nat
  microsecond : Nat
deriving DecidableEq

/-- Model of a CPython `datetime.date` value. -/
structure Date where
  year : Nat
  month : Nat
  day : Nat
deriving DecidableEq

/-- Model of `datetime.date()`: the date portion of a timestamp. -/
def DateTime.date (t : DateTime) : Date :=
  ⟨t.year, t.month, t.day⟩

/-- The comparison key of a datetime: CPython compares naive datetimes by
the tuple of their seven components. -/
def DateTime.key (t : DateTime) : List Nat :=
  [t.year, t.month, t.day, t.hour, t.minute, t.second, t.microsecond]

/-- Strict lexicographic order on lists of naturals, as CPython orders
tuples of integers. -/
def natListLt : List Nat → List Nat → Bool
  | _, [] => false
  | [], _ :: _ => true
  | a :: as, b :: bs => decide (a < b) || (decide (a = b) && natListLt as bs)

/-- Model of `datetime.__lt__` on naive datetimes. -/
def DateTime.ltB (a b : DateTime) : Bool :=
  natListLt a.key b.key

/-- Model of `datetime.__le__` on naive datetimes (CPython sorts use only
the strict comparison; `leB a b` is the non-strict order `¬ (b < a)`). -/
def DateTime.leB (a b : DateTime) : Bool :=
  !(natListLt b.key a.key)

theorem natListLt_irrefl : ∀ l : List Nat, natListLt l l = false
  | [] => rfl
  | _ :: as => by simp [natListLt, natListLt_irrefl as]

theorem natListLt_asymm : ∀ {l m : List Nat},
    natListLt l m = true → natListLt m l = false
  | [], [], h => by simp [natListLt] at h
  | [], _ :: _, _ => rfl
  | _ :: _, [], h => by simp [natListLt] at h
  | a :: as, b :: bs, h => by
    simp only [natListLt, Bool.or_eq_true, Bool.and_eq_true,
      decide_eq_true_eq] at h
    rcases h with h | ⟨rfl, h⟩
    · have h1 : decide (b < a) = false := by simp; omega
      have h2 : decide (b = a) = false := by simp; omega
      simp [natListLt, h1, h2]
    · have h1 : decide (a < a) = false := by simp
      simp [natListLt, h1, natListLt_asymm h]

theorem natListLt_trans : ∀ {l m n : List Nat},
    natListLt l m = true → natListLt m n = true → natListLt l n = true
  | _, _, [], _, h => by simp [natListLt] at h
  | _, [], _ :: _, h, _ => by simp [natListLt] at h
  | [], _ :: _, _ :: _, _, _ => rfl
  | a :: as, b :: bs, c :: cs, h, h' => by
    simp only [natListLt, Bool.or_eq_true, Bool.and_eq_true,
      decide_eq_true_eq] at h h' ⊢
    rcases h with h | ⟨rfl, h⟩ <;> rcases h' with h' | ⟨rfl, h'⟩
    · omega
    · omega
    · omega
    · exact Or.inr ⟨rfl, natListLt_trans h h'⟩

theorem natListLt_eq_of_not : ∀ {l m : List Nat},
    natListLt l m = false → natListLt m l = false → l = m
  | [], [], _, _ => rfl
  | [], _ :: _, h, _ => by simp [natListLt] at h
  | _ :: _, [], _, h => by simp [natListLt] at h
  | a :: as, b :: bs, h, h' => by
    simp only [natListLt, Bool.or_eq_false_iff, Bool.and_eq_false_iff,
      decide_eq_false_iff_not] at h h'
    obtain ⟨h1, h2⟩ := h
    obtain ⟨h1', h2'⟩ := h'
    have hab : a = b := by omega
    subst hab
    rcases h2 with h2 | h2
    · omega
    · rcases h2' with h2' | h2'
      · omega
      · rw [natListLt_eq_of_not h2 h2']

theorem DateTime.key_inj {a b : DateTime} (h : a.key = b.key) : a = b := by
  cases a; cases b
  simp only [DateTime.key, List.cons.injEq, and_true] at h
  obtain ⟨h1, h2, h3, h4, h5, h6, h7⟩ := h
  subst h1; subst h2; subst h3; subst h4; subst h5; subst h6; subst h7
  rfl

theorem DateTime.leB_total (a b : DateTime) :
    a.leB b = true ∨ b.leB a = true := by
  simp only [DateTime.leB, Bool.not_eq_true']
  by_cases h : natListLt b.key a.key = true
  · exact Or.inr (natListLt_asymm h)
  · exact Or.inl (by simpa using h)

theorem DateTime.leB_trans {a b c : DateTime}
    (h : a.leB b = true) (h' : b.leB c = true) : a.leB c = true := by
  simp only [DateTime.leB, Bool.not_eq_true'] at h h' ⊢
  by_contra hc
  simp only [Bool.not_eq_false] at hc
  by_cases hbc : natListLt b.key c.key = true
  · exact absurd (natListLt_trans hbc hc) (by simp [h])
  · have : b.key = c.key := natListLt_eq_of_not (by simpa using hbc) h'
    rw [this] at h
    simp [hc] at h

theorem DateTime.leB_refl (a : DateTime) : a.leB a = true := by
  simp [DateTime.leB, natListLt_irrefl]

theorem DateTime.leB_antisymm {a b : DateTime}
    (h : a.leB b = true) (h' : b.leB a = true) : a = b := by
  simp only [DateTime.leB, Bool.not_eq_true'] at h h'
  exact DateTime.key_inj (natListLt_eq_of_not h' h)

/-- Model of the `HalfHourRecord` dataclass: one half-hour observation.
The count is a Python `int`, hence `Int` (the parser accepts negatives). -/
structure HalfHourRecord where
  timestamp : DateTime
  count : Int
deriving DecidableEq

/-! ### The parser (`parse_file`)

The file is modelled as the list of its lines, in order.  Per line the
code strips whitespace (`line.strip()`), skips blank lines, splits on
whitespace runs (`line.split()`), requires exactly two fields, parses
the first with `datetime.fromisoformat` and the second with `int`, and
on any failure emits one diagnostic on stderr and moves on. -/

/-- Whitespace characters removed by `str.strip` / split on by
`str.split` (the ASCII ones; the inputs at hand are ASCII). -/
def isPySpace (c : Char) : Bool :=
  c = ' ' || c = '\t' || c = '\n' || c = '\r' || c = '\x0b' || c = '\x0c'

/-- Model of `str.strip()`: drop leading and trailing whitespace. -/
def pyStrip (s : String) : String :=
  ⟨((s.data.dropWhile isPySpace).reverse.dropWhile isPySpace).reverse⟩

/-- Helper for `pySplit`: accumulate the current (reversed) token while
scanning the characters. -/
def splitWsAux : List Char → List Char → List String
  | [], acc => if acc.isEmpty then [] else [⟨acc.reverse⟩]
  | c :: cs, acc =>
    if isPySpace c then
      if acc.isEmpty then splitWsAux cs [] else ⟨acc.reverse⟩ :: splitWsAux cs []
    else splitWsAux cs (c :: acc)

/-- Model of `str.split()` with no separator argument: split on runs of
whitespace, producing no empty fields. -/
def pySplit (s : String) : List String :=
  splitWsAux s.data []

/-- An ASCII digit, as accepted inside the numeric components. -/
def isDigitC (c : Char) : Bool :=
  48 ≤ c.toNat && c.toNat ≤ 57

/-- The numeric value of an ASCII digit character. -/
def dval (c : Char) : Nat :=
  c.toNat - 48

/-- Two-digit numeric component (`int(s[i:i+2])` on digit characters). -/
def digits2 (a b : Char) : Option Nat :=
  if isDigitC a && isDigitC b then some (dval a * 10 + dval b) else none

/-- Four-digit numeric component (the year field of the date). -/
def digits4 (a b c d : Char) : Option Nat :=
  if isDigitC a && isDigitC b && isDigitC c && isDigitC d then
    some (((dval a * 10 + dval b) * 10 + dval c) * 10 + dval d)
  else none

/-- Gregorian leap-year rule, as used by `datetime.date`. -/
def isLeap (y : Nat) : Bool :=
  y % 4 = 0 && (y % 100 ≠ 0 || y % 400 = 0)

/-- Days in a month, as validated by the `datetime` constructor. -/
def daysInMonth (y mo : Nat) : Nat :=
  if mo = 2 then (if isLeap y then 29 else 28)
  else if mo = 4 || mo = 6 || mo = 9 || mo = 11 then 30
  else 31

/-- The range checks the `datetime.datetime` constructor performs on a
parsed date (`MINYEAR <= year <= MAXYEAR`, valid month and day). -/
def validDateB (y mo d : Nat) : Bool :=
  1 ≤ y && y ≤ 9999 && 1 ≤ mo && mo ≤ 12 && 1 ≤ d && d ≤ daysInMonth y mo

/-- The fractional-second component: exactly three or exactly six digits
after the dot, scaled to microseconds (`_parse_hh_mm_ss_ff`). -/
def parseFrac : List Char → Option Nat
  | [a, b, c] =>
    if isDigitC a && isDigitC b && isDigitC c then
      some (((dval a * 10 + dval b) * 10 + dval c) * 1000)
    else none
  | [a, b, c, d, e, f] =>
    if isDigitC a && isDigitC b && isDigitC c &&
        isDigitC d && isDigitC e && isDigitC f then
      some (((((dval a * 10 + dval b) * 10 + dval c) * 10 + dval d) * 10
        + dval e) * 10 + dval f)
    else none
  | _ => none

/-- The time part `HH[:MM[:SS[.fff[fff]]]]` of an isoformat string
(`_parse_hh_mm_ss_ff`): progressively optional components, `:`
separators, fraction only after the seconds.  Returns
(hour, minute, second, microsecond). -/
def parseHMS : List Char → Option (Nat × Nat × Nat × Nat)
  | h1 :: h2 :: rest =>
    match digits2 h1 h2 with
    | none => none
    | some hh =>
      match rest with
      | [] => some (hh, 0, 0, 0)
      | ':' :: m1 :: m2 :: rest2 =>
        match digits2 m1 m2 with
        | none => none
        | some mm =>
          match rest2 with
          | [] => some (hh, mm, 0, 0)
          | ':' :: s1 :: s2 :: rest3 =>
            match digits2 s1 s2 with
            | none => none
            | some ss =>
              match rest3 with
              | [] => some (hh, mm, ss, 0)
              | '.' :: frac =>
                match parseFrac frac with
                | some us => some (hh, mm, ss, us)
                | none => none
              | _ => none
          | _ => none
      | _ => none
  | _ => none

/-- Model of `datetime.fromisoformat` on the program's (naive,
offset-free) timestamps, following the documented grammar
`YYYY-MM-DD[*HH[:MM[:SS[.fff[fff]]]]]`: a strict ten-character date,
then optionally one separator character (any character) and a time
part; the components are range-checked as the `datetime` constructor
does.  A date-only string parses to midnight of that date.  Timezone
offsets are outside the model — the program treats all timestamps as
naive (spec 4.1), and no claim involves an offset-carrying token. -/
def fromisoformat (s : String) : Option DateTime :=
  match s.data with
  | y1 :: y2 :: y3 :: y4 :: c1 :: m1 :: m2 :: c2 :: d1 :: d2 :: rest =>
    if c1 = '-' && c2 = '-' then
      match digits4 y1 y2 y3 y4, digits2 m1 m2, digits2 d1 d2 with
      | some y, some mo, some d =>
        if validDateB y mo d then
          match rest with
          | [] => some ⟨y, mo, d, 0, 0, 0, 0⟩
          | _ :: tstr =>
            match parseHMS tstr with
            | some (hh, mm, ss, us) =>
              if hh ≤ 23 && mm ≤ 59 && ss ≤ 59 && us < 1000000 then
                some ⟨y, mo, d, hh, mm, ss, us⟩
              else none
            | none => none
        else none
      | _, _, _ => none
    else none
  | _ => none

/-- Digits of an `int()` literal after the optional sign: at least one
digit, with single underscores permitted between digits (the Python
integer-literal grouping rule). -/
def parseDigitsGo : List Char → Nat → Option Nat
  | [], acc => some acc
  | '_' :: c :: cs, acc =>
    if isDigitC c then parseDigitsGo cs (acc * 10 + dval c) else none
  | ['_'], _ => none
  | c :: cs, acc =>
    if isDigitC c then parseDigitsGo cs (acc * 10 + dval c) else none

/-- The digit part of an `int()` token: nonempty, starting with a digit. -/
def parseDigits : List Char → Option Nat
  | [] => none
  | c :: cs => if isDigitC c then parseDigitsGo cs (dval c) else none

/-- Model of `int(str)` on a whitespace-free token: optional sign, then
base-10 digits (with underscore grouping). -/
def parseIntTok (s : String) : Option Int :=
  match s.data with
  | [] => none
  | c :: cs =>
    if c = '-' then (parseDigits cs).map (fun n => -(n : Int))
    else if c = '+' then (parseDigits cs).map (fun n => (n : Int))
    else (parseDigits (c :: cs)).map (fun n => (n : Int))

/-- The two classes of diagnostic the parser prints to stderr: the
wrong-field-count warning and the `ValueError` message covering bad
timestamps and bad counts. -/
inductive DiagKind
  | fieldCount
  | valueError
deriving DecidableEq

/-- One stderr diagnostic: the 1-based line number, the (stripped) raw
line the message quotes, and which message was printed. -/
structure Diagnostic where
  lineNum : Nat
  raw : String
  kind : DiagKind
deriving DecidableEq

/-- What processing one line does: silently skipped blank line, a
parsed record, or a skipped line with a diagnostic. -/
inductive LineOutcome
  | blank
  | ok (r : HalfHourRecord)
  | bad (k : DiagKind)
deriving DecidableEq

/-- The per-line body of `parse_file`'s loop: strip, skip blank, split,
check the field count, parse timestamp then count (a failure of either
raises `ValueError`, caught by the same handler). -/
def processLine (s : String) : LineOutcome :=
  let t := pyStrip s
  if t = "" then .blank
  else
    match pySplit t with
    | [tsStr, countStr] =>
      match fromisoformat tsStr with
      | none => .bad .valueError
      | some ts =>
        match parseIntTok countStr with
        | none => .bad .valueError
        | some c => .ok ⟨ts, c⟩
    | _ => .bad .fieldCount

/-- The enumerate-from-`n` loop of `parse_file`: collect records of good
lines and diagnostics of bad ones, in line order. -/
def parseAux : Nat → List String → List HalfHourRecord × List Diagnostic
  | _, [] => ([], [])
  | n, s :: rest =>
    let acc := parseAux (n + 1) rest
    match processLine s with
    | .blank => acc
    | .ok r => (r :: acc.1, acc.2)
    | .bad k => (acc.1, ⟨n, pyStrip s, k⟩ :: acc.2)

/-- Model of `parse_file`: the input file as its list of lines; the
result is the record list the function returns together with the
diagnostics it printed to stderr (line numbers are 1-based, from
`enumerate(f, 1)`). -/
def parse_file (lines : List String) : List HalfHourRecord × List Diagnostic :=
  parseAux 1 lines

/-- Direct one-line reading used to state parser claims: the record a
line denotes, if it is syntactically valid (nonblank, two fields, good
timestamp, good count); `none` otherwise. -/
def lineRecord (s : String) : Option HalfHourRecord :=
  let t := pyStrip s
  if t = "" then none
  else
    match pySplit t with
    | [tsStr, countStr] =>
      match fromisoformat tsStr, parseIntTok countStr with
      | some ts, some c => some ⟨ts, c⟩
      | _, _ => none
    | _ => none

/-- A malformed line: not blank, yet yields no record. -/
def malformedLine (s : String) : Prop :=
  pyStrip s ≠ "" ∧ lineRecord s = none

instance : DecidablePred malformedLine := fun s =>
  inferInstanceAs (Decidable (pyStrip s ≠ "" ∧ lineRecord s = none))

example : pyStrip "  2021-12-01T05:00:00 5\n" = "2021-12-01T05:00:00 5" := by decide
example : pySplit "2021-12-01T05:00:00  5" = ["2021-12-01T05:00:00", "5"] := by decide
example : fromisoformat "2021-12-01T05:00:00" = some ⟨2021, 12, 1, 5, 0, 0, 0⟩ := by decide
example : fromisoformat "2021-12-01" = some ⟨2021, 12, 1, 0, 0, 0, 0⟩ := by decide
example : fromisoformat "BAD_TIMESTAMP" = none := by decide
example : fromisoformat "2021-02-29T00:00:00" = none := by decide
example : fromisoformat "2021-12-01T05:00:00.123" = some ⟨2021, 12, 1, 5, 0, 0, 123000⟩ := by decide
example : parseIntTok "-5" = some (-5) := by decide
example : parseIntTok "ABC" = none := by decide
example : parse_file ["2021-12-01T05:00:00 5", "BAD_TIMESTAMP 10", "", "2021-12-01T06:30:00 15 extra"] =
    ([⟨⟨2021, 12, 1, 5, 0, 0, 0⟩, 5⟩],
     [⟨2, "BAD_TIMESTAMP 10", .valueError⟩, ⟨4, "2021-12-01T06:30:00 15 extra", .fieldCount⟩]) := by
  decide

/-! ### The four aggregators

`total_cars`, `cars_per_day`, `top_three_half_hours` and
`min_1_5_hour_window`, translated from `traffic_analysis.py`. -/

/-- Model of `total_cars`: `sum(r.count for r in records)` — a left fold
of `+` starting from 0. -/
def total_cars (records : List HalfHourRecord) : Int :=
  records.foldl (fun acc r => acc + r.count) 0

/-- One step of `cars_per_day`'s loop body
`per_day[d] = per_day.get(d, 0) + r.count` on the insertion-ordered
dict: add to the existing key's value, or append a new key. -/
def addToDay : List (Date × Int) → Date → Int → List (Date × Int)
  | [], d, c => [(d, c)]
  | (d', c') :: rest, d, c =>
    if d' = d then (d', c' + c) :: rest else (d', c') :: addToDay rest d c

/-- Model of `cars_per_day`: the Python dict as an association list in
key-insertion order (Python dicts preserve insertion order). -/
def cars_per_day (records : List HalfHourRecord) : List (Date × Int) :=
  records.foldl (fun m r => addToDay m r.timestamp.date r.count) []

/-- The total preorder induced by the sort key
`lambda r: (-r.count, r.timestamp)` of `top_three_half_hours`:
descending count, then ascending timestamp. -/
def topKeyLe (a b : HalfHourRecord) : Prop :=
  b.count < a.count ∨ (a.count = b.count ∧ a.timestamp.leB b.timestamp = true)

instance : DecidableRel topKeyLe := fun _a _b =>
  inferInstanceAs (Decidable (_ ∨ _))

instance : IsTotal HalfHourRecord topKeyLe where
  total a b := by
    rcases Int.lt_trichotomy a.count b.count with h | h | h
    · exact Or.inr (Or.inl h)
    · rcases DateTime.leB_total a.timestamp b.timestamp with h' | h'
      · exact Or.inl (Or.inr ⟨h, h'⟩)
      · exact Or.inr (Or.inr ⟨h.symm, h'⟩)
    · exact Or.inl (Or.inl h)

instance : IsTrans HalfHourRecord topKeyLe where
  trans a b c h h' := by
    rcases h with h | ⟨h1, h2⟩ <;> rcases h' with h' | ⟨h1', h2'⟩
    · exact Or.inl (by omega)
    · exact Or.inl (by omega)
    · exact Or.inl (by omega)
    · exact Or.inr ⟨h1.trans h1', DateTime.leB_trans h2 h2'⟩

/-- Model of `top_three_half_hours`: a stable sort by the composite key,
then the first three.  Python's `sorted` is a stable sort by the key's
total preorder; a stable sort's output is uniquely determined by that
preorder and the input order, so insertion sort (stable, Mathlib)
computes exactly what Timsort computes. -/
def top_three_half_hours (records : List HalfHourRecord) : List HalfHourRecord :=
  (List.insertionSort topKeyLe records).take 3

/-- The count at index `i`, out-of-range reading as 0 (the program only
reads in range; totalizing keeps the sliding-sum identity unconditional). -/
def cAt (l : List HalfHourRecord) (i : Nat) : Int :=
  match l[i]? with
  | some r => r.count
  | none => 0

/-- The sum of the 3-record window of `l` starting at index `i`. -/
def windowSum (l : List HalfHourRecord) (i : Nat) : Int :=
  cAt l i + cAt l (i + 1) + cAt l (i + 2)

/-- The body of `min_1_5_hour_window`'s loop: slide the window sum by
one (`current_sum -= records[start-1].count;
current_sum += records[start+2].count`) and keep the best start on a
strict improvement (`<`, not `<=`).  State: (current_sum, best_sum,
best_start). -/
def minWindowStep (l : List HalfHourRecord) (st : Int × Int × Nat)
    (start : Nat) : Int × Int × Nat :=
  let cur := st.1 - cAt l (start - 1) + cAt l (start + 2)
  if cur < st.2.1 then (cur, cur, start) else (cur, st.2.1, st.2.2)

/-- Model of `min_1_5_hour_window`: with fewer than 3 records return the
input (the copy `records[:]` has the same value); otherwise run the
sliding-window loop over `range(1, len(records) - 2)` — the start
indices `1, …, len-3` — and return the slice
`records[best_start : best_start + 3]`. -/
def min_1_5_hour_window (records : List HalfHourRecord) : List HalfHourRecord :=
  if records.length < 3 then records
  else
    let init := total_cars (records.take 3)
    let st := (List.range' 1 (records.length - 3)).foldl
      (minWindowStep records) (init, init, 0)
    (records.drop st.2.2).take 3

/-! ### The orchestrator (`main`, and the `/analyze` endpoint)

Both callers short-circuit on an empty parse result (`main` prints
"No records found in input file.", the endpoint answers 400), and
otherwise run `records.sort(key=lambda r: r.timestamp)` — a stable
ascending sort by timestamp — before calling the four aggregators. -/

/-- The timestamp order `key=lambda r: r.timestamp` the orchestrator
sorts by. -/
def tsLe (a b : HalfHourRecord) : Prop :=
  a.timestamp.leB b.timestamp = true

instance : DecidableRel tsLe := fun _a _b =>
  inferInstanceAs (Decidable (_ = true))

instance : IsTotal HalfHourRecord tsLe where
  total a b := DateTime.leB_total a.timestamp b.timestamp

instance : IsTrans HalfHourRecord tsLe where
  trans _ _ _ h h' := DateTime.leB_trans h h'

/-- Model of `records.sort(key=lambda r: r.timestamp)`: `list.sort` is a
stable ascending sort, and a stable sort's output is unique, so
insertion sort computes it. -/
def sortByTimestamp (records : List HalfHourRecord) : List HalfHourRecord :=
  List.insertionSort tsLe records

/-- What the orchestrator reports: the no-records short-circuit (the
message in `main`, the 400 response in the endpoint), or the four
analysis results. -/
inductive MainOutcome
  | noRecords
  | results (total : Int) (perDay : List (Date × Int))
      (top3 : List HalfHourRecord) (window : List HalfHourRecord)
deriving DecidableEq

/-- The analysis phase shared by `main` and `analyze_traffic_file`: the
empty check `if not records`, then the in-place timestamp sort, then the
four aggregator calls on the sorted list. -/
def main_analyze (records : List HalfHourRecord) : MainOutcome :=
  if records = [] then .noRecords
  else
    .results (total_cars (sortByTimestamp records))
      (cars_per_day (sortByTimestamp records))
      (top_three_half_hours (sortByTimestamp records))
      (min_1_5_hour_window (sortByTimestamp records))

/-! ### Call-effect wrappers

Each aggregator call, seen with the argument list's value after the
call.  `total_cars` folds over the list, `cars_per_day` fills a fresh
dict, `top_three_half_hours` sorts with `sorted` (which builds a new
list), and `min_1_5_hour_window` only reads and returns slices
(`records[:]`, `records[a:b]` — fresh lists); none of the four writes
through the argument, so the post-call value is the input itself. -/

/-- Calling `total_cars`: (return value, argument list after the call). -/
def total_cars_call (records : List HalfHourRecord) :
    Int × List HalfHourRecord :=
  (total_cars records, records)

/-- Calling `cars_per_day`: (return value, argument list after the call). -/
def cars_per_day_call (records : List HalfHourRecord) :
    List (Date × Int) × List HalfHourRecord :=
  (cars_per_day records, records)

/-- Calling `top_three_half_hours`: (return value, argument list after
the call). -/
def top_three_call (records : List HalfHourRecord) :
    List HalfHourRecord × List HalfHourRecord :=
  (top_three_half_hours records, records)

/-- Calling `min_1_5_hour_window`: (return value, argument list after
the call). -/
def min_window_call (records : List HalfHourRecord) :
    List HalfHourRecord × List HalfHourRecord :=
  (min_1_5_hour_window records, records)

example :
    total_cars [⟨⟨2021, 12, 1, 5, 0, 0, 0⟩, 5⟩, ⟨⟨2021, 12, 1, 5, 30, 0, 0⟩, 10⟩,
      ⟨⟨2021, 12, 2, 6, 0, 0, 0⟩, 3⟩] = 18 := by decide

example :
    cars_per_day [⟨⟨2021, 12, 1, 5, 0, 0, 0⟩, 5⟩, ⟨⟨2021, 12, 1, 5, 30, 0, 0⟩, 10⟩,
      ⟨⟨2021, 12, 2, 6, 0, 0, 0⟩, 3⟩] = [(⟨2021, 12, 1⟩, 15), (⟨2021, 12, 2⟩, 3)] := by decide

example :
    top_three_half_hours [⟨⟨2021, 12, 1, 7, 0, 0, 0⟩, 25⟩, ⟨⟨2021, 12, 1, 8, 0, 0, 0⟩, 15⟩,
      ⟨⟨2021, 12, 1, 6, 0, 0, 0⟩, 15⟩, ⟨⟨2021, 12, 1, 9, 0, 0, 0⟩, 10⟩] =
    [⟨⟨2021, 12, 1, 7, 0, 0, 0⟩, 25⟩, ⟨⟨2021, 12, 1, 6, 0, 0, 0⟩, 15⟩,
      ⟨⟨2021, 12, 1, 8, 0, 0, 0⟩, 15⟩] := by decide

example :
    min_1_5_hour_window [⟨⟨2021, 12, 1, 5, 0, 0, 0⟩, 5⟩, ⟨⟨2021, 12, 1, 5, 30, 0, 0⟩, 10⟩,
      ⟨⟨2021, 12, 1, 6, 0, 0, 0⟩, 3⟩, ⟨⟨2021, 12, 1, 6, 30, 0, 0⟩, 20⟩] =
    [⟨⟨2021, 12, 1, 5, 0, 0, 0⟩, 5⟩, ⟨⟨2021, 12, 1, 5, 30, 0, 0⟩, 10⟩,
      ⟨⟨2021, 12, 1, 6, 0, 0, 0⟩, 3⟩] := by decide

example :
    min_1_5_hour_window [⟨⟨2021, 12, 1, 6, 0, 0, 0⟩, 3⟩, ⟨⟨2021, 12, 1, 5, 0, 0, 0⟩, 5⟩,
      ⟨⟨2021, 12, 1, 6, 30, 0, 0⟩, 20⟩, ⟨⟨2021, 12, 1, 5, 30, 0, 0⟩, 10⟩] =
    [⟨⟨2021, 12, 1, 6, 0, 0, 0⟩, 3⟩, ⟨⟨2021, 12, 1, 5, 0, 0, 0⟩, 5⟩,
      ⟨⟨2021, 12, 1, 6, 30, 0, 0⟩, 20⟩] := by decide

/-! ### Correctness of the sliding-window minimum -/

theorem total_cars_shift (l : List HalfHourRecord) (a : Int) :
    l.foldl (fun acc r => acc + r.count) a = a + total_cars l := by
  induction l generalizing a with
  | nil => simp [total_cars]
  | cons r rest ih =>
    simp only [total_cars, List.foldl_cons] at ih ⊢
    rw [ih, ih (0 + r.count)]
    ring

theorem total_cars_cons (r : HalfHourRecord) (l : List HalfHourRecord) :
    total_cars (r :: l) = r.count + total_cars l := by
  simp only [total_cars, List.foldl_cons]
  rw [total_cars_shift]
  simp [total_cars]

theorem exists_three {l : List HalfHourRecord} (h : 3 ≤ l.length) :
    ∃ a b c rest, l = a :: b :: c :: rest := by
  match l with
  | a :: b :: c :: rest => exact ⟨a, b, c, rest, rfl⟩
  | [] | [_] | [_, _] => simp at h

theorem cAt_drop (l : List HalfHourRecord) (i k : Nat) :
    cAt (l.drop i) k = cAt l (i + k) := by
  simp [cAt, List.getElem?_drop]

theorem windowSum_zero {l : List HalfHourRecord} (h : 3 ≤ l.length) :
    total_cars (l.take 3) = windowSum l 0 := by
  obtain ⟨a, b, c, rest, rfl⟩ := exists_three h
  show total_cars [a, b, c] = _
  simp only [windowSum, cAt, total_cars, List.foldl_cons, List.foldl_nil]
  simp only [List.getElem?_cons_zero, List.getElem?_cons_succ]
  ring

theorem windowSum_drop (l : List HalfHourRecord) (i : Nat) :
    windowSum (l.drop i) 0 = windowSum l i := by
  simp [windowSum, cAt_drop]

theorem total_cars_drop_take {l : List HalfHourRecord} {i : Nat}
    (h : i + 3 ≤ l.length) :
    total_cars ((l.drop i).take 3) = windowSum l i := by
  have hlen : 3 ≤ (l.drop i).length := by
    rw [List.length_drop]; omega
  rw [windowSum_zero hlen, windowSum_drop]

theorem windowSum_succ (l : List HalfHourRecord) (k : Nat) :
    windowSum l (k + 1) = windowSum l k - cAt l k + cAt l (k + 3) := by
  have h1 : k + 1 + 1 = k + 2 := rfl
  have h2 : k + 1 + 2 = k + 3 := rfl
  simp only [windowSum, h1, h2]
  ring

/-- Invariant of the sliding-window loop after the start index `k` has
been processed: the running sum is the window sum at `k`, and
(best_sum, best_start) is the minimal window sum over starts `0..k`
together with the leftmost start achieving it. -/
def MWInv (l : List HalfHourRecord) (k : Nat) (st : Int × Int × Nat) : Prop :=
  st.1 = windowSum l k ∧
  st.2.2 ≤ k ∧
  st.2.1 = windowSum l st.2.2 ∧
  (∀ j, j ≤ k → st.2.1 ≤ windowSum l j) ∧
  (∀ j, j ≤ k → windowSum l j = st.2.1 → st.2.2 ≤ j)

theorem MWInv_step (l : List HalfHourRecord) (k : Nat) (st : Int × Int × Nat)
    (h : MWInv l k st) : MWInv l (k + 1) (minWindowStep l st (k + 1)) := by
  obtain ⟨h1, h2, h3, h4, h5⟩ := h
  have hcur : st.1 - cAt l (k + 1 - 1) + cAt l (k + 1 + 2) = windowSum l (k + 1) := by
    have e1 : k + 1 - 1 = k := rfl
    have e2 : k + 1 + 2 = k + 3 := rfl
    rw [e1, e2, h1, windowSum_succ]
  unfold minWindowStep
  rw [hcur]
  by_cases hlt : windowSum l (k + 1) < st.2.1
  · rw [if_pos hlt]
    dsimp only [MWInv]
    refine ⟨rfl, Nat.le_refl _, rfl, ?_, ?_⟩
    · intro j hj
      rcases Nat.lt_or_ge j (k + 1) with hj' | hj'
      · have := h4 j (by omega)
        omega
      · have : j = k + 1 := by omega
        subst this
        exact Int.le_refl _
    · intro j hj hje
      rcases Nat.lt_or_ge j (k + 1) with hj' | hj'
      · have := h4 j (by omega)
        omega
      · omega
  · rw [if_neg hlt]
    dsimp only [MWInv]
    refine ⟨rfl, by omega, h3, ?_, ?_⟩
    · intro j hj
      rcases Nat.lt_or_ge j (k + 1) with hj' | hj'
      · exact h4 j (by omega)
      · have : j = k + 1 := by omega
        subst this
        omega
    · intro j hj hje
      rcases Nat.lt_or_ge j (k + 1) with hj' | hj'
      · exact h5 j (by omega) hje
      · omega

theorem MWInv_fold (l : List HalfHourRecord) :
    ∀ (n k : Nat) (st : Int × Int × Nat), MWInv l k st →
      MWInv l (k + n) ((List.range' (k + 1) n).foldl (minWindowStep l) st)
  | 0, k, st, h => by simpa using h
  | n + 1, k, st, h => by
    rw [List.range'_succ, List.foldl_cons]
    have h' := MWInv_step l k st h
    have hrec := MWInv_fold l n (k + 1) _ h'
    have he : k + 1 + n = k + (n + 1) := by omega
    rwa [he] at hrec

/-- The characterizing property of `min_1_5_hour_window` on inputs of
length at least 3: it returns the slice at the leftmost start index of
minimal window sum. -/
theorem minWindow_spec (l : List HalfHourRecord) (h : 3 ≤ l.length) :
    ∃ i, i + 3 ≤ l.length ∧
      min_1_5_hour_window l = (l.drop i).take 3 ∧
      total_cars (min_1_5_hour_window l) = windowSum l i ∧
      (∀ j, j + 3 ≤ l.length → windowSum l i ≤ windowSum l j) ∧
      (∀ j, j + 3 ≤ l.length → windowSum l j = windowSum l i → i ≤ j) := by
  have hinit : MWInv l 0 (total_cars (l.take 3), total_cars (l.take 3), 0) := by
    refine ⟨windowSum_zero h, Nat.le_refl _, windowSum_zero h, ?_, ?_⟩
    · intro j hj
      have : j = 0 := by omega
      subst this
      exact le_of_eq (windowSum_zero h)
    · intro j _ _
      exact Nat.zero_le j
  have hfold := MWInv_fold l (l.length - 3) 0 _ hinit
  simp only [Nat.zero_add] at hfold
  have hres : min_1_5_hour_window l =
      (l.drop ((List.range' 1 (l.length - 3)).foldl (minWindowStep l)
        (total_cars (l.take 3), total_cars (l.take 3), 0)).2.2).take 3 := by
    rw [min_1_5_hour_window, if_neg (by omega)]
  generalize hstf : (List.range' 1 (l.length - 3)).foldl (minWindowStep l)
    (total_cars (l.take 3), total_cars (l.take 3), 0) = stf at hfold hres
  obtain ⟨f1, f2, f3, f4, f5⟩ := hfold
  have hi3 : stf.2.2 + 3 ≤ l.length := by omega
  refine ⟨stf.2.2, hi3, hres, ?_, ?_, ?_⟩
  · rw [hres, total_cars_drop_take hi3]
  · intro j hj
    rw [← f3]
    exact f4 j (by omega)
  · intro j hj hje
    rw [← f3] at hje
    exact f5 j (by omega) hje

/-- C1: for every list of records with at least 3 elements,
`min_1_5_hour_window` returns the 3-element contiguous-by-index window
`records[i : i+3]` whose count sum is minimal; every other start index
`j` has window sum ≥ the returned one, and on equal sums `j ≥ i`
(the leftmost minimal window wins, by the strict `<` update). -/
theorem min_window_leftmost_minimal (l : List HalfHourRecord)
    (h : 3 ≤ l.length) :
    ∃ i, i + 3 ≤ l.length ∧
      min_1_5_hour_window l = (l.drop i).take 3 ∧
      total_cars (min_1_5_hour_window l) = windowSum l i ∧
      ∀ j, j + 3 ≤ l.length →
        windowSum l i ≤ windowSum l j ∧
        (windowSum l j = windowSum l i → i ≤ j) := by
  obtain ⟨i, hi, he, hs, hmin, hleft⟩ := minWindow_spec l h
  exact ⟨i, hi, he, hs, fun j hj => ⟨hmin j hj, hleft j hj⟩⟩

/-- Witness for C1 at the four-record input with counts 5, 10, 3, 20:
the minimal window starts at index 0. -/
theorem min_window_leftmost_minimal_witness :
    (3 ≤ ([⟨⟨2021, 12, 1, 5, 0, 0, 0⟩, 5⟩, ⟨⟨2021, 12, 1, 5, 30, 0, 0⟩, 10⟩,
      ⟨⟨2021, 12, 1, 6, 0, 0, 0⟩, 3⟩, ⟨⟨2021, 12, 1, 6, 30, 0, 0⟩, 20⟩] :
        List HalfHourRecord).length) ∧
    (∃ i, i + 3 ≤ ([⟨⟨2021, 12, 1, 5, 0, 0, 0⟩, 5⟩, ⟨⟨2021, 12, 1, 5, 30, 0, 0⟩, 10⟩,
        ⟨⟨2021, 12, 1, 6, 0, 0, 0⟩, 3⟩, ⟨⟨2021, 12, 1, 6, 30, 0, 0⟩, 20⟩] :
          List HalfHourRecord).length ∧
      min_1_5_hour_window [⟨⟨2021, 12, 1, 5, 0, 0, 0⟩, 5⟩, ⟨⟨2021, 12, 1, 5, 30, 0, 0⟩, 10⟩,
        ⟨⟨2021, 12, 1, 6, 0, 0, 0⟩, 3⟩, ⟨⟨2021, 12, 1, 6, 30, 0, 0⟩, 20⟩] =
        (([⟨⟨2021, 12, 1, 5, 0, 0, 0⟩, 5⟩, ⟨⟨2021, 12, 1, 5, 30, 0, 0⟩, 10⟩,
          ⟨⟨2021, 12, 1, 6, 0, 0, 0⟩, 3⟩, ⟨⟨2021, 12, 1, 6, 30, 0, 0⟩, 20⟩] :
            List HalfHourRecord).drop i).take 3 ∧
      total_cars (min_1_5_hour_window [⟨⟨2021, 12, 1, 5, 0, 0, 0⟩, 5⟩,
        ⟨⟨2021, 12, 1, 5, 30, 0, 0⟩, 10⟩, ⟨⟨2021, 12, 1, 6, 0, 0, 0⟩, 3⟩,
        ⟨⟨2021, 12, 1, 6, 30, 0, 0⟩, 20⟩]) =
        windowSum [⟨⟨2021, 12, 1, 5, 0, 0, 0⟩, 5⟩, ⟨⟨2021, 12, 1, 5, 30, 0, 0⟩, 10⟩,
          ⟨⟨2021, 12, 1, 6, 0, 0, 0⟩, 3⟩, ⟨⟨2021, 12, 1, 6, 30, 0, 0⟩, 20⟩] i ∧
      ∀ j, j + 3 ≤ ([⟨⟨2021, 12, 1, 5, 0, 0, 0⟩, 5⟩, ⟨⟨2021, 12, 1, 5, 30, 0, 0⟩, 10⟩,
          ⟨⟨2021, 12, 1, 6, 0, 0, 0⟩, 3⟩, ⟨⟨2021, 12, 1, 6, 30, 0, 0⟩, 20⟩] :
            List HalfHourRecord).length →
        windowSum [⟨⟨2021, 12, 1, 5, 0, 0, 0⟩, 5⟩, ⟨⟨2021, 12, 1, 5, 30, 0, 0⟩, 10⟩,
          ⟨⟨2021, 12, 1, 6, 0, 0, 0⟩, 3⟩, ⟨⟨2021, 12, 1, 6, 30, 0, 0⟩, 20⟩] i ≤
          windowSum [⟨⟨2021, 12, 1, 5, 0, 0, 0⟩, 5⟩, ⟨⟨2021, 12, 1, 5, 30, 0, 0⟩, 10⟩,
            ⟨⟨2021, 12, 1, 6, 0, 0, 0⟩, 3⟩, ⟨⟨2021, 12, 1, 6, 30, 0, 0⟩, 20⟩] j ∧
          (windowSum [⟨⟨2021, 12, 1, 5, 0, 0, 0⟩, 5⟩, ⟨⟨2021, 12, 1, 5, 30, 0, 0⟩, 10⟩,
            ⟨⟨2021, 12, 1, 6, 0, 0, 0⟩, 3⟩, ⟨⟨2021, 12, 1, 6, 30, 0, 0⟩, 20⟩] j =
            windowSum [⟨⟨2021, 12, 1, 5, 0, 0, 0⟩, 5⟩, ⟨⟨2021, 12, 1, 5, 30, 0, 0⟩, 10⟩,
              ⟨⟨2021, 12, 1, 6, 0, 0, 0⟩, 3⟩, ⟨⟨2021, 12, 1, 6, 30, 0, 0⟩, 20⟩] i → i ≤ j)) :=
  ⟨by decide, min_window_leftmost_minimal _ (by decide)⟩

/-- C3: with fewer than 3 records `min_1_5_hour_window` returns the
input unchanged in the same order (`records[:]` is a value-equal copy);
with 3 or more it returns exactly 3 elements. -/
theorem min_window_size_contract (l : List HalfHourRecord) :
    (l.length < 3 → min_1_5_hour_window l = l) ∧
    (3 ≤ l.length → (min_1_5_hour_window l).length = 3) := by
  constructor
  · intro h
    rw [min_1_5_hour_window, if_pos h]
  · intro h
    obtain ⟨i, hi, he, -, -, -⟩ := minWindow_spec l h
    rw [he, List.length_take, List.length_drop]
    omega

/-- Witness for C3: a two-record input comes back unchanged, and a
four-record input yields exactly 3 records. -/
theorem min_window_size_contract_witness :
    (min_1_5_hour_window [⟨⟨2021, 12, 1, 5, 0, 0, 0⟩, 5⟩,
        ⟨⟨2021, 12, 1, 5, 30, 0, 0⟩, 10⟩] =
      [⟨⟨2021, 12, 1, 5, 0, 0, 0⟩, 5⟩, ⟨⟨2021, 12, 1, 5, 30, 0, 0⟩, 10⟩]) ∧
    ((min_1_5_hour_window [⟨⟨2021, 12, 1, 5, 0, 0, 0⟩, 5⟩,
        ⟨⟨2021, 12, 1, 5, 30, 0, 0⟩, 10⟩, ⟨⟨2021, 12, 1, 6, 0, 0, 0⟩, 3⟩,
        ⟨⟨2021, 12, 1, 6, 30, 0, 0⟩, 20⟩]).length = 3) :=
  ⟨(min_window_size_contract _).1 (by decide),
   (min_window_size_contract _).2 (by decide)⟩

/-! ### Frame property and top-three properties -/

/-- C9: none of the four aggregators mutates its argument list.
`total_cars` only folds over it, `cars_per_day` writes into a fresh
dict, `top_three_half_hours` calls `sorted` (which copies), and
`min_1_5_hour_window` only indexes and slices; so in each call wrapper
the post-call list value is the argument itself. -/
theorem aggregators_preserve_input (records : List HalfHourRecord) :
    (total_cars_call records).2 = records ∧
    (cars_per_day_call records).2 = records ∧
    (top_three_call records).2 = records ∧
    (min_window_call records).2 = records :=
  ⟨rfl, rfl, rfl, rfl⟩

/-- C10: every record `top_three_half_hours` returns is an element of
the input, and the result is a prefix of a permutation of the input
(the sorted copy): nothing is fabricated, duplicated beyond input
multiplicity, or altered. -/
theorem top_three_from_input (records : List HalfHourRecord) :
    (∀ r ∈ top_three_half_hours records, r ∈ records) ∧
    ∃ p : List HalfHourRecord, p.Perm records ∧
      ∃ rest, p = top_three_half_hours records ++ rest := by
  have hperm := List.perm_insertionSort topKeyLe records
  constructor
  · intro r hr
    have hsub : List.Sublist (top_three_half_hours records)
        (List.insertionSort topKeyLe records) :=
      List.take_sublist 3 _
    exact hperm.mem_iff.mp (hsub.subset hr)
  · exact ⟨List.insertionSort topKeyLe records, hperm,
      (List.insertionSort topKeyLe records).drop 3,
      (List.take_append_drop 3 _).symm⟩

/-- C2 (amended): `top_three_half_hours` returns at most 3 records, and
consecutive returned records are ordered by descending count with ties
ordered by non-decreasing timestamp.  (The original claim's strict
`a.timestamp < b.timestamp` on ties fails when the input holds two
equal records; with duplicates the tie-broken timestamps are equal,
not strictly increasing.) -/
theorem top_three_ordered (records : List HalfHourRecord) :
    (top_three_half_hours records).length ≤ 3 ∧
    (top_three_half_hours records).Pairwise (fun a b =>
      b.count < a.count ∨
        (a.count = b.count ∧ a.timestamp.leB b.timestamp = true)) := by
  constructor
  · exact List.length_take_le 3 _
  · have hs : (List.insertionSort topKeyLe records).Pairwise topKeyLe :=
      List.sorted_insertionSort topKeyLe records
    exact List.Pairwise.sublist (List.take_sublist 3 _) hs

/-- C2 counterexample: on an input holding the same record twice, the
returned pair ties on both count and timestamp, so the claimed strict
ordering (count strictly greater, or equal count and timestamp strictly
earlier) fails between the two returned elements. -/
theorem top_three_strict_order_counterexample :
    ¬ ((top_three_half_hours [⟨⟨2021, 12, 1, 5, 0, 0, 0⟩, 5⟩,
          ⟨⟨2021, 12, 1, 5, 0, 0, 0⟩, 5⟩]).length ≤ 3 ∧
       (top_three_half_hours [⟨⟨2021, 12, 1, 5, 0, 0, 0⟩, 5⟩,
          ⟨⟨2021, 12, 1, 5, 0, 0, 0⟩, 5⟩]).Pairwise (fun a b =>
         b.count < a.count ∨
           (a.count = b.count ∧ a.timestamp.ltB b.timestamp = true))) := by
  decide

/-! ### Conservation: per-day totals sum to the grand total -/

theorem addToDay_sum (m : List (Date × Int)) (d : Date) (c : Int) :
    ((addToDay m d c).map Prod.snd).sum = (m.map Prod.snd).sum + c := by
  induction m with
  | nil => simp [addToDay]
  | cons p rest ih =>
    obtain ⟨d', c'⟩ := p
    simp only [addToDay]
    split
    · simp
      ring
    · simp only [List.map_cons, List.sum_cons, ih]
      ring

theorem cars_per_day_fold (l : List HalfHourRecord) :
    ∀ m : List (Date × Int),
      (((l.foldl (fun m r => addToDay m r.timestamp.date r.count) m)).map
        Prod.snd).sum = (m.map Prod.snd).sum + total_cars l := by
  induction l with
  | nil =>
    intro m
    simp [total_cars]
  | cons r rest ih =>
    intro m
    simp only [List.foldl_cons]
    rw [ih, addToDay_sum, total_cars_cons]
    ring

/-- C4: per-day aggregation conserves the total — the values of
`cars_per_day` sum to `total_cars` of the same records. -/
theorem cars_per_day_total (records : List HalfHourRecord) :
    ((cars_per_day records).map Prod.snd).sum = total_cars records := by
  have h := cars_per_day_fold records []
  simpa [cars_per_day] using h

/-! ### The orchestrator contract -/

theorem pairwise_tsLe_of_const {t : DateTime} :
    ∀ {m : List HalfHourRecord}, (∀ x ∈ m, x.timestamp = t) → m.Pairwise tsLe := by
  intro m
  induction m with
  | nil => intro _; exact List.Pairwise.nil
  | cons a rest ih =>
    intro h
    refine List.Pairwise.cons ?_ (ih fun x hx => h x (List.mem_cons_of_mem _ hx))
    intro b hb
    have ha := h a (List.mem_cons_self _ _)
    have hbt := h b (List.mem_cons_of_mem _ hb)
    unfold tsLe
    rw [ha, hbt]
    exact DateTime.leB_refl t

/-- Stability of the orchestrator's sort: records with any fixed
timestamp keep their relative input order. -/
theorem sortByTimestamp_stable (records : List HalfHourRecord) (t : DateTime) :
    (sortByTimestamp records).filter (fun r => decide (r.timestamp = t)) =
      records.filter (fun r => decide (r.timestamp = t)) := by
  have hmem : ∀ x ∈ records.filter (fun r => decide (r.timestamp = t)),
      x.timestamp = t := by
    intro x hx
    have := List.of_mem_filter hx
    simpa using this
  have hpair : (records.filter (fun r => decide (r.timestamp = t))).Pairwise tsLe :=
    pairwise_tsLe_of_const hmem
  have hsub : List.Sublist (records.filter (fun r => decide (r.timestamp = t)))
      (List.insertionSort tsLe records) :=
    List.sublist_insertionSort hpair (List.filter_sublist records)
  have h2 := hsub.filter (fun r => decide (r.timestamp = t))
  have hself : (records.filter (fun r => decide (r.timestamp = t))).filter
      (fun r => decide (r.timestamp = t)) =
      records.filter (fun r => decide (r.timestamp = t)) := by
    apply List.filter_eq_self.mpr
    intro a ha
    exact (List.mem_filter.mp ha).2
  rw [hself] at h2
  have hlen : (records.filter (fun r => decide (r.timestamp = t))).length =
      ((List.insertionSort tsLe records).filter
        (fun r => decide (r.timestamp = t))).length :=
    (((List.perm_insertionSort tsLe records).filter
      (fun r => decide (r.timestamp = t))).length_eq).symm
  exact (h2.eq_of_length hlen).symm

/-- C7: the orchestrator (`main`, and likewise the `/analyze` endpoint)
short-circuits on an empty parsed sequence, reporting the no-records
outcome and invoking no aggregator; otherwise it sorts by timestamp
ascending — a stable sort (a permutation, pairwise non-decreasing
timestamps, equal-timestamp records in input order) — and only then
invokes the four aggregators on the sorted sequence. -/
theorem orchestrator_contract (records : List HalfHourRecord) :
    (records = [] → main_analyze records = .noRecords) ∧
    (records ≠ [] →
      main_analyze records = .results (total_cars (sortByTimestamp records))
        (cars_per_day (sortByTimestamp records))
        (top_three_half_hours (sortByTimestamp records))
        (min_1_5_hour_window (sortByTimestamp records)) ∧
      (sortByTimestamp records).Perm records ∧
      (sortByTimestamp records).Pairwise tsLe ∧
      ∀ t : DateTime,
        (sortByTimestamp records).filter (fun r => decide (r.timestamp = t)) =
          records.filter (fun r => decide (r.timestamp = t))) := by
  constructor
  · intro h
    rw [main_analyze, if_pos h]
  · intro h
    exact ⟨by rw [main_analyze, if_neg h],
      List.perm_insertionSort tsLe records,
      List.sorted_insertionSort tsLe records,
      fun t => sortByTimestamp_stable records t⟩

/-- Witness for C7: the empty input short-circuits, and a concrete
two-record unsorted input is analyzed on its sorted permutation. -/
theorem orchestrator_contract_witness :
    (main_analyze [] = .noRecords) ∧
    (main_analyze [⟨⟨2021, 12, 1, 6, 0, 0, 0⟩, 3⟩, ⟨⟨2021, 12, 1, 5, 0, 0, 0⟩, 5⟩] =
        .results
          (total_cars (sortByTimestamp
            [⟨⟨2021, 12, 1, 6, 0, 0, 0⟩, 3⟩, ⟨⟨2021, 12, 1, 5, 0, 0, 0⟩, 5⟩]))
          (cars_per_day (sortByTimestamp
            [⟨⟨2021, 12, 1, 6, 0, 0, 0⟩, 3⟩, ⟨⟨2021, 12, 1, 5, 0, 0, 0⟩, 5⟩]))
          (top_three_half_hours (sortByTimestamp
            [⟨⟨2021, 12, 1, 6, 0, 0, 0⟩, 3⟩, ⟨⟨2021, 12, 1, 5, 0, 0, 0⟩, 5⟩]))
          (min_1_5_hour_window (sortByTimestamp
            [⟨⟨2021, 12, 1, 6, 0, 0, 0⟩, 3⟩, ⟨⟨2021, 12, 1, 5, 0, 0, 0⟩, 5⟩])) ∧
      (sortByTimestamp [⟨⟨2021, 12, 1, 6, 0, 0, 0⟩, 3⟩,
        ⟨⟨2021, 12, 1, 5, 0, 0, 0⟩, 5⟩]).Perm
        [⟨⟨2021, 12, 1, 6, 0, 0, 0⟩, 3⟩, ⟨⟨2021, 12, 1, 5, 0, 0, 0⟩, 5⟩] ∧
      (sortByTimestamp [⟨⟨2021, 12, 1, 6, 0, 0, 0⟩, 3⟩,
        ⟨⟨2021, 12, 1, 5, 0, 0, 0⟩, 5⟩]).Pairwise tsLe ∧
      ∀ t : DateTime,
        (sortByTimestamp [⟨⟨2021, 12, 1, 6, 0, 0, 0⟩, 3⟩,
          ⟨⟨2021, 12, 1, 5, 0, 0, 0⟩, 5⟩]).filter (fun r => decide (r.timestamp = t)) =
          ([⟨⟨2021, 12, 1, 6, 0, 0, 0⟩, 3⟩, ⟨⟨2021, 12, 1, 5, 0, 0, 0⟩, 5⟩] :
            List HalfHourRecord).filter (fun r => decide (r.timestamp = t))) :=
  ⟨(orchestrator_contract []).1 rfl,
   (orchestrator_contract [⟨⟨2021, 12, 1, 6, 0, 0, 0⟩, 3⟩,
     ⟨⟨2021, 12, 1, 5, 0, 0, 0⟩, 5⟩]).2 (by decide)⟩

/-! ### Parser contract -/

theorem lineRecord_eq (s : String) :
    lineRecord s = (match processLine s with
      | .ok r => some r
      | .blank => none
      | .bad _ => none) := by
  simp only [lineRecord, processLine]
  by_cases h : pyStrip s = ""
  · simp [h]
  · simp only [if_neg h]
    rcases hsp : pySplit (pyStrip s) with - | ⟨a, - | ⟨b, - | ⟨c, rest⟩⟩⟩
    · rfl
    · rfl
    · rcases hf : fromisoformat a with - | ts
      · simp [hf]
      · rcases hp : parseIntTok b with - | cv
        · simp [hf, hp]
        · simp [hf, hp]
    · rfl

theorem parseAux_fst (n : Nat) (ls : List String) :
    (parseAux n ls).1 = ls.filterMap lineRecord := by
  induction ls generalizing n with
  | nil => rfl
  | cons s rest ih =>
    simp only [parseAux, List.filterMap_cons, lineRecord_eq s]
    cases hp : processLine s with
    | blank => simpa using ih (n + 1)
    | ok r => simpa using ih (n + 1)
    | bad k => simpa using ih (n + 1)

theorem processLine_ne_blank {s : String} (h : pyStrip s ≠ "") :
    processLine s ≠ .blank := by
  simp only [processLine, if_neg h]
  rcases hsp : pySplit (pyStrip s) with - | ⟨a, - | ⟨b, - | ⟨c, rest⟩⟩⟩
  · simp
  · simp
  · rcases hf : fromisoformat a with - | ts
    · simp [hf]
    · rcases hp : parseIntTok b with - | cv
      · simp [hf, hp]
      · simp [hf, hp]
  · simp

theorem malformed_bad {s : String} (hm : malformedLine s) :
    ∃ k, processLine s = .bad k := by
  obtain ⟨hne, hnone⟩ := hm
  rw [lineRecord_eq s] at hnone
  cases hp : processLine s with
  | ok r =>
    rw [hp] at hnone
    simp at hnone
  | bad k => exact ⟨k, rfl⟩
  | blank => exact absurd hp (processLine_ne_blank hne)

theorem parseAux_diag (ls : List String) : ∀ (n i : Nat) (h : i < ls.length),
    malformedLine (ls.get ⟨i, h⟩) →
    ∃ d ∈ (parseAux n ls).2, d.lineNum = n + i := by
  induction ls with
  | nil =>
    intro n i h
    simp at h
  | cons s rest ih =>
    intro n i h hm
    cases i with
    | zero =>
      obtain ⟨k, hk⟩ := malformed_bad (s := s) hm
      refine ⟨⟨n, pyStrip s, k⟩, ?_, by simp⟩
      simp [parseAux, hk]
    | succ i' =>
      have h' : i' < rest.length := by simpa using h
      obtain ⟨d, hd, hdn⟩ := ih (n + 1) i' h' hm
      refine ⟨d, ?_, by omega⟩
      cases hk : processLine s
      · simpa [parseAux, hk] using hd
      · simpa [parseAux, hk] using hd
      · simp [parseAux, hk]
        exact Or.inr hd

/-- C5: on any input file, `parse_file` returns exactly the records of
the syntactically valid lines in the file's original order (the
`filterMap` of the one-line reading), emits at least one diagnostic
(with the right 1-based line number) for every malformed line, and —
being a total function to a pair — never aborts the whole parse. -/
theorem parse_file_contract (lines : List String) :
    (parse_file lines).1 = lines.filterMap lineRecord ∧
    ∀ i (h : i < lines.length), malformedLine (lines.get ⟨i, h⟩) →
      ∃ d ∈ (parse_file lines).2, d.lineNum = i + 1 := by
  constructor
  · exact parseAux_fst 1 lines
  · intro i h hm
    obtain ⟨d, hd, hdn⟩ := parseAux_diag lines 1 i h hm
    exact ⟨d, hd, by omega⟩

/-- Witness for C5 on the mixed file of the repository's robustness
test: valid, bad-timestamp, valid, bad-count, wrong-field-count lines;
line 2 is malformed and gets a diagnostic numbered 2. -/
theorem parse_file_contract_witness :
    ((parse_file ["2021-12-01T05:00:00 5", "BAD_TIMESTAMP 10",
        "2021-12-01T05:30:00 20", "2021-12-01T06:00:00 ABC",
        "2021-12-01T06:30:00 15 extra"]).1 =
      ["2021-12-01T05:00:00 5", "BAD_TIMESTAMP 10", "2021-12-01T05:30:00 20",
        "2021-12-01T06:00:00 ABC",
        "2021-12-01T06:30:00 15 extra"].filterMap lineRecord) ∧
    (∃ d ∈ (parse_file ["2021-12-01T05:00:00 5", "BAD_TIMESTAMP 10",
        "2021-12-01T05:30:00 20", "2021-12-01T06:00:00 ABC",
        "2021-12-01T06:30:00 15 extra"]).2, d.lineNum = 1 + 1) :=
  ⟨(parse_file_contract _).1,
   (parse_file_contract ["2021-12-01T05:00:00 5", "BAD_TIMESTAMP 10",
      "2021-12-01T05:30:00 20", "2021-12-01T06:00:00 ABC",
      "2021-12-01T06:30:00 15 extra"]).2 1 (by decide) (by decide)⟩

/-! ### Timestamp-token handling (claim C6) and the record invariant (claim C8) -/

/-- C6 counterexample: the token `2021-12-01` is date-only — ten
characters, no time designator anywhere — yet `datetime.fromisoformat`
accepts it (the time part of the isoformat grammar is optional), so the
line `2021-12-01 5` is not skipped: it produces the midnight record and
no diagnostic. -/
theorem date_only_token_accepted_counterexample :
    (∀ c ∈ ("2021-12-01" : String).data, c ≠ 'T') ∧
    ("2021-12-01" : String).length = 10 ∧
    parse_file ["2021-12-01 5"] =
      ([⟨⟨2021, 12, 1, 0, 0, 0, 0⟩, 5⟩], []) := by
  decide

/-- C6 (amended): a line whose two-field split has a timestamp token
that `fromisoformat` rejects (not parseable as an ISO-8601 date, with
the time part optional — a date-only token is accepted and reads as
midnight) yields no record and gets a diagnostic carrying the line's
1-based number. -/
theorem bad_timestamp_line_skipped (lines : List String) :
    ∀ i (h : i < lines.length) (a b : String),
      pySplit (pyStrip (lines.get ⟨i, h⟩)) = [a, b] →
      fromisoformat a = none →
      lineRecord (lines.get ⟨i, h⟩) = none ∧
      ∃ d ∈ (parse_file lines).2, d.lineNum = i + 1 := by
  intro i h a b hsp hf
  have hstrip : pyStrip (lines.get ⟨i, h⟩) ≠ "" := by
    intro he
    rw [he] at hsp
    simp [pySplit, splitWsAux] at hsp
  have hlr : lineRecord (lines.get ⟨i, h⟩) = none := by
    simp only [lineRecord, if_neg hstrip, hsp, hf]
  refine ⟨hlr, ?_⟩
  obtain ⟨d, hd, hdn⟩ := parseAux_diag lines 1 i h ⟨hstrip, hlr⟩
  exact ⟨d, hd, by omega⟩

/-- Witness for the amended C6 on the robustness test's bad line:
`BAD_TIMESTAMP 10` yields no record and a diagnostic numbered 1. -/
theorem bad_timestamp_line_skipped_witness :
    lineRecord "BAD_TIMESTAMP 10" = none ∧
    ∃ d ∈ (parse_file ["BAD_TIMESTAMP 10"]).2, d.lineNum = 0 + 1 :=
  bad_timestamp_line_skipped ["BAD_TIMESTAMP 10"] 0 (by decide)
    "BAD_TIMESTAMP" "10" (by decide) (by decide)

/-- C8 counterexample: the parser accepts a negative count — `int()`
parses the sign — so the invariant `count >= 0` fails on the records it
produces: the line `2021-12-01T05:00:00 -5` yields a record with count
-5 and no diagnostic. -/
theorem negative_count_counterexample :
    (parse_file ["2021-12-01T05:00:00 -5"]).1 =
      [⟨⟨2021, 12, 1, 5, 0, 0, 0⟩, -5⟩] ∧
    (parse_file ["2021-12-01T05:00:00 -5"]).2 = [] ∧
    ((-5 : Int) < 0) := by
  decide

/-- Validity of a parsed timestamp: the range checks the
`datetime.datetime` constructor enforces, so the timestamp is a
fully-specified calendar date-time. -/
def ValidDT (t : DateTime) : Prop :=
  1 ≤ t.year ∧ t.year ≤ 9999 ∧ 1 ≤ t.month ∧ t.month ≤ 12 ∧
  1 ≤ t.day ∧ t.day ≤ daysInMonth t.year t.month ∧
  t.hour ≤ 23 ∧ t.minute ≤ 59 ∧ t.second ≤ 59 ∧ t.microsecond < 1000000

theorem fromisoformat_valid : ∀ {a : String} {t : DateTime},
    fromisoformat a = some t → ValidDT t := by
  intro a t h
  unfold fromisoformat at h
  split at h
  · split at h
    · split at h
      · rename_i y mo d hdig
        split at h
        · rename_i hvd
          simp only [validDateB, Bool.and_eq_true, decide_eq_true_eq] at hvd
          split at h
          · obtain rfl := Option.some.inj h
            unfold ValidDT
            dsimp only
            omega
          · split at h
            · split at h
              · rename_i htime
                simp only [Bool.and_eq_true, decide_eq_true_eq] at htime
                obtain rfl := Option.some.inj h
                unfold ValidDT
                dsimp only
                omega
              · exact absurd h (by simp)
            · exact absurd h (by simp)
        · exact absurd h (by simp)
      · exact absurd h (by simp)
    · exact absurd h (by simp)
  · exact absurd h (by simp)

/-- C8 (amended): every record `parse_file` produces comes from some
input line via the one-line reading, and its timestamp is a
fully-specified valid date-time; its count is the integer parsed from
the count token and may be negative — non-negativity is not enforced by
the parser. -/
theorem parsed_record_invariant (lines : List String) :
    ∀ r ∈ (parse_file lines).1,
      ValidDT r.timestamp ∧ ∃ s ∈ lines, lineRecord s = some r := by
  intro r hr
  rw [show (parse_file lines).1 = lines.filterMap lineRecord from
    parseAux_fst 1 lines, List.mem_filterMap] at hr
  obtain ⟨s, hs, hlr⟩ := hr
  refine ⟨?_, s, hs, hlr⟩
  by_cases hstrip : pyStrip s = ""
  · rw [lineRecord, if_pos hstrip] at hlr
    simp at hlr
  · rw [lineRecord] at hlr
    rw [if_neg hstrip] at hlr
    split at hlr
    · split at hlr
      · rename_i ts cv hf hp
        obtain rfl := Option.some.inj hlr
        exact fromisoformat_valid hf
      · simp at hlr
    · simp at hlr

/-- Witness for the amended C8 at a negative-count line: the produced
record has a valid timestamp and stems from the input line. -/
theorem parsed_record_invariant_witness :
    ValidDT (⟨⟨2021, 12, 1, 5, 0, 0, 0⟩, -5⟩ : HalfHourRecord).timestamp ∧
    ∃ s ∈ ["2021-12-01T05:00:00 -5"],
      lineRecord s = some ⟨⟨2021, 12, 1, 5, 0, 0, 0⟩, -5⟩ :=
  parsed_record_invariant ["2021-12-01T05:00:00 -5"]
    ⟨⟨2021, 12, 1, 5, 0, 0, 0⟩, -5⟩ (by decide)

end Traffic
